import Mathlib

/-!
Verification of the RP3-to-TCX converter (`rp3-tcx.py`).

The Python program is shallowly embedded below.  Numeric CSV cells are
modelled as exact rationals / integers (the string-to-number conversion is
performed by the Python builtins `float`/`int`, external to the logic being
verified); Python `int(...)` applied to a float is truncation toward zero,
modelled by `truncRat`.  Python exceptions (`AttributeError` on the missing
current interval, `IndexError` on an empty point list, the header
`Exception`) are modelled with `Option` / `Except`.  XML elements are
modelled as records carrying the same data in the same order.
-/

namespace RP3

/-- Truncation toward zero of a rational to an integer: Python `int(x)`
applied to a float.  `q.num / q.den` with division rounding toward zero. -/
def truncRat (q : ℚ) : ℤ :=
  q.num.tdiv (q.den : ℤ)

/-- `Stroke.paceToSpeed`: converting seconds-per-500m to m/s; `0` when the
pace is not positive (source lines 64-70). -/
def paceToSpeed (pace : ℚ) : ℚ :=
  if pace > 0 then 500 / pace else 0

/-- `Stroke.kJToCalories` (source lines 72-73). -/
def kJToCalories (kJ : ℚ) : ℚ :=
  kJ / 4.184

/-- One data point of the rower, as constructed by `Stroke.__init__`
(source lines 51-59). -/
structure Stroke where
  secs : ℚ
  speed : ℚ
  dist : ℚ
  power : ℚ
  heart : ℤ
  cadence : ℤ
  calories : ℤ
  interval_id : ℤ
  deriving DecidableEq

/-- `Stroke.__init__` from the numeric values of the CSV cells it reads
(columns 1, 4, 6, 7, 9, 11, 13, 14 of the extended layout; the
string-to-number parsing itself is external).  `int(float(csvrow[6]))` and
`int(self.kJToCalories(...))` truncate toward zero (source lines 51-59). -/
def Stroke.ofFields (workout_interval_id : ℤ) (power : ℚ) (stroke_rate : ℚ)
    (time : ℚ) (distance : ℚ) (estimated_500m_time : ℚ) (energy_sum : ℚ)
    (pulse : ℤ) : Stroke where
  secs := time
  speed := paceToSpeed estimated_500m_time
  dist := distance
  power := power
  heart := pulse
  cadence := truncRat stroke_rate
  calories := truncRat (kJToCalories energy_sum)
  interval_id := workout_interval_id

/-- The exact header of the extended 25-column layout, as built in
`Stroke.parseStrokeHdr` (source lines 107-133). -/
def expectedHdr : List String :=
  ["id", "workout_interval_id", "ref", "stroke_number", "power",
   "avg_power", "stroke_rate", "time", "stroke_length", "distance",
   "distance_per_stroke", "estimated_500m_time", "energy_per_stroke",
   "energy_sum", "pulse", "work_per_pulse", "peak_force", "peak_force_pos",
   "rel_peak_force_pos", "drive_time", "recover_time", "k", "curve_data",
   "stroke_number_in_interval", "avg_calculated_power"]

/-- The legacy 8-column header described by the specification (section 6);
it does not occur anywhere in the source. -/
def legacyHdr : List String :=
  ["Number", "Time (seconds)", "Distance (meters)", "Pace (seconds)",
   "Watts", "Cal/Hr", "Stroke Rate", "Heart Rate"]

/-- `Stroke.parseStrokeHdr` (source lines 98-136): reject any header that
is not column-for-column the expected 25-column one. -/
def parseStrokeHdr (csvrow : List String) : Except String Unit :=
  if csvrow.length ≠ 25 then Except.error "Expected 25 cols"
  else if expectedHdr ≠ csvrow then Except.error "Unexpected Header"
  else Except.ok ()

/-- A `Trackpoint` element as produced by `Stroke.trackpointElement`
(source lines 78-91): time, distance, heart rate, cadence, and the
TPX/Watts extension. -/
structure Trackpoint where
  time : String
  distanceMeters : ℚ
  heartRateBpm : ℤ
  cadence : ℤ
  watts : ℚ
  deriving DecidableEq

/-- Zero-pad a natural number to two digits. -/
def pad2 (n : ℕ) : String :=
  if n < 10 then "0" ++ toString n else toString n

/-- Zero-pad a year to four digits. -/
def pad4 (y : ℤ) : String :=
  if y < 0 then "-" ++ toString (-y)
  else if y < 10 then "000" ++ toString y
  else if y < 100 then "00" ++ toString y
  else if y < 1000 then "0" ++ toString y
  else toString y

/-- Proleptic-Gregorian date of a day count relative to 1970-01-01
(`time.gmtime`'s calendar computation). -/
def civilFromDays (z : ℤ) : ℤ × ℕ × ℕ :=
  let zs : ℤ := z + 719468
  let era : ℤ := zs.ediv 146097
  let doe : ℕ := (zs - era * 146097).toNat
  let yoe : ℕ := (doe - doe / 1460 + doe / 36524 - doe / 146096) / 365
  let doy : ℕ := doe - (365 * yoe + yoe / 4 - yoe / 100)
  let mp : ℕ := (5 * doy + 2) / 153
  let d : ℕ := doy - (153 * mp + 2) / 5 + 1
  let m : ℕ := if mp < 10 then mp + 3 else mp - 9
  (((yoe : ℤ) + era * 400) + (if m ≤ 2 then 1 else 0), m, d)

/-- `Workout.isoTimestamp` (source lines 244-248): UTC rendering of an
epoch-seconds value in the fixed format `YYYY-MM-DDTHH:MM:SS.000Z`.
`time.gmtime` floors the fractional seconds. -/
def isoTimestamp (seconds : ℚ) : String :=
  let t : ℤ := seconds.floor
  let days : ℤ := t.ediv 86400
  let sod : ℕ := (t.emod 86400).toNat
  let ymd := civilFromDays days
  pad4 ymd.1 ++ "-" ++ pad2 ymd.2.1 ++ "-" ++ pad2 ymd.2.2 ++ "T" ++
    pad2 (sod / 3600) ++ ":" ++ pad2 (sod % 3600 / 60) ++ ":" ++
    pad2 (sod % 60) ++ ".000Z"

/-- `Stroke.trackpointElement` (source lines 78-91). -/
def Stroke.trackpointElement (p : Stroke) (start : ℚ) : Trackpoint where
  time := isoTimestamp (start + p.secs)
  distanceMeters := p.dist
  heartRateBpm := p.heart
  cadence := p.cadence
  watts := p.power

/-- One interval of the workout (class `Interval`, source lines 139-209). -/
structure Interval where
  startsec : ℚ
  endsec : ℚ
  maxSpeed : ℚ
  maxHeart : ℤ
  maxCadence : ℤ
  maxWatts : ℚ
  ttlDist : ℚ
  interval_id : ℤ
  points : List Stroke
  deriving DecidableEq

/-- `Interval.__init__` (source lines 146-158). -/
def Interval.init (ID : ℤ) (lap_startsec : ℚ) : Interval where
  startsec := lap_startsec
  endsec := lap_startsec
  maxSpeed := 0
  maxHeart := 0
  maxCadence := 0
  maxWatts := 0
  ttlDist := 0
  interval_id := ID
  points := []

/-- `Interval.collectStats` (source lines 164-174): refresh the end offset
and the four running maxima (strictly-greater comparisons). -/
def Interval.collectStats (iv : Interval) (p : Stroke) : Interval :=
  { iv with
    endsec := iv.startsec + p.secs
    maxSpeed := if p.speed > iv.maxSpeed then p.speed else iv.maxSpeed
    maxHeart := if p.heart > iv.maxHeart then p.heart else iv.maxHeart
    maxCadence := if p.cadence > iv.maxCadence then p.cadence else iv.maxCadence
    maxWatts := if p.power > iv.maxWatts then p.power else iv.maxWatts }

/-- `Interval.addStroke` (source lines 160-162): append the point, then
collect the statistics. -/
def Interval.addStroke (iv : Interval) (p : Stroke) : Interval :=
  Interval.collectStats { iv with points := iv.points ++ [p] } p

/-- A `Lap` element as produced by `Interval.addLap` (source lines
179-198). -/
structure Lap where
  startTime : String
  totalTimeSeconds : ℚ
  distanceMeters : ℚ
  maximumSpeed : ℚ
  calories : ℤ
  maximumHeartRate : ℤ
  intensity : String
  triggerMethod : String
  track : List Trackpoint
  deriving DecidableEq

/-- `Interval.trackElement` (source lines 205-209): one trackpoint per
point, in order. -/
def Interval.trackElement (iv : Interval) : List Trackpoint :=
  iv.points.map (fun p => p.trackpointElement iv.startsec)

/-- `Interval.addLap` (source lines 179-198): the code indexes
`self.points[len(self.points) - 1]`, which raises on an empty list, hence
the `Option`. -/
def Interval.addLap (iv : Interval) : Option Lap :=
  match iv.points.getLast? with
  | none => none
  | some lastp =>
      some { startTime := isoTimestamp iv.startsec
             totalTimeSeconds := lastp.secs
             distanceMeters := lastp.dist
             maximumSpeed := iv.maxSpeed
             calories := lastp.calories
             maximumHeartRate := iv.maxHeart
             intensity := "Active"
             triggerMethod := "Manual"
             track := iv.trackElement }

/-- The whole workout (class `Workout`, source lines 212-313). -/
structure Workout where
  startsec : ℚ
  intervals : List Interval
  deriving DecidableEq

/-- Identifier of the most recent interval, `0` when there is none
(`current_ID` in `Workout.readCSV`, source lines 230-236). -/
def lastId (intervals : List Interval) : ℤ :=
  match intervals.getLast? with
  | some interval => interval.interval_id
  | none => 0

/-- End offset of the most recent interval, the workout start when there
is none (`end_time` in `Workout.readCSV`, source lines 230-236). -/
def lastEnd (startsec : ℚ) (intervals : List Interval) : ℚ :=
  match intervals.getLast? with
  | some interval => interval.endsec
  | none => startsec

/-- One pass of the loop body of `Workout.readCSV` (source lines 226-242).
When the sample's identifier exceeds the most recent interval's, a fresh
interval is appended, starting at the previous end offset; the sample then
goes to the most recent interval.  With no interval and no new one created,
`interval` is Python's `None` and `interval.addStroke(p)` raises:
modelled by `none`. -/
def processStroke (startsec : ℚ) (intervals : List Interval) (p : Stroke) :
    Option (List Interval) :=
  let ID := p.interval_id
  if ID > lastId intervals then
    some (intervals ++ [(Interval.init ID (lastEnd startsec intervals)).addStroke p])
  else
    match intervals.getLast? with
    | some interval => some (intervals.dropLast ++ [interval.addStroke p])
    | none => none

/-- The data-row loop of `Workout.readCSV` (source lines 226-242), over the
already-parsed samples. -/
def readCSV (startsec : ℚ) (rows : List Stroke) : Option (List Interval) :=
  List.foldlM (processStroke startsec) [] rows

/-- The fixed `Creator` block (`Workout.addCreator`, source lines
278-294). -/
structure Creator where
  name : String
  unitId : String
  productId : String
  versionMajor : String
  versionMinor : String
  buildMajor : String
  buildMinor : String
  deriving DecidableEq

/-- `Workout.addCreator` (source lines 278-294). -/
def creatorElement : Creator where
  name := "RP3 Dynamic Rower"
  unitId := "0"
  productId := "0"
  versionMajor := "1"
  versionMinor := "0"
  buildMajor := "0"
  buildMinor := "0"

/-- The fixed `Author` block (`Workout.addAuthor`, source lines 296-313). -/
structure Author where
  name : String
  versionMajor : String
  versionMinor : String
  buildMajor : String
  buildMinor : String
  langId : String
  partNumber : String
  deriving DecidableEq

/-- `Workout.addAuthor` (source lines 296-313). -/
def authorElement : Author where
  name := "RP3 CSV to TCX Convertor"
  versionMajor := "1"
  versionMinor := "0"
  buildMajor := "0"
  buildMinor := "0"
  langId := "en"
  partNumber := "none"

/-- The `Activity` element (`Workout.addActivity`, source lines 269-276). -/
structure Activity where
  sport : String
  id : String
  laps : List Lap
  creator : Creator
  deriving DecidableEq

/-- `Workout.addActivity` (source lines 269-276): sport `Rowing`, the ISO
start time as identifier, one lap per interval in order, then the creator
block. -/
def Workout.addActivity (w : Workout) : Option Activity :=
  (w.intervals.mapM Interval.addLap).map fun laps =>
    { sport := "Rowing"
      id := isoTimestamp w.startsec
      laps := laps
      creator := creatorElement }

/-- The document root (`Workout.trainingCenterDB`, source lines 259-267). -/
structure TrainingCenterDatabase where
  activities : List Activity
  author : Author
  deriving DecidableEq

/-- `Workout.trainingCenterDB` (source lines 259-267): one activity plus
the author block. -/
def Workout.trainingCenterDB (w : Workout) : Option TrainingCenterDatabase :=
  w.addActivity.map fun act => { activities := [act], author := authorElement }

/-- The whole conversion on an already-tokenised file: header validation
(`Stroke.parseStrokeHdr`), then the row loop of `Workout.readCSV`, then
document assembly (source lines 216-276). -/
def convert (startsec : ℚ) (hdr : List String) (rows : List Stroke) :
    Option TrainingCenterDatabase :=
  match parseStrokeHdr hdr with
  | Except.error _ => none
  | Except.ok _ =>
      (readCSV startsec rows).bind fun ivs =>
        Workout.trainingCenterDB { startsec := startsec, intervals := ivs }

/-! ### Elementary facts about the interval operations -/

theorem ite_gt_eq_max {α : Type} [LinearOrder α] (a b : α) :
    (if a < b then b else a) = max a b := by
  rcases le_or_lt b a with h | h
  · rw [if_neg (not_lt.mpr h), max_eq_left h]
  · rw [if_pos h, max_eq_right h.le]

@[simp] theorem addStroke_startsec (iv : Interval) (p : Stroke) :
    (iv.addStroke p).startsec = iv.startsec := rfl

@[simp] theorem addStroke_endsec (iv : Interval) (p : Stroke) :
    (iv.addStroke p).endsec = iv.startsec + p.secs := rfl

@[simp] theorem addStroke_interval_id (iv : Interval) (p : Stroke) :
    (iv.addStroke p).interval_id = iv.interval_id := rfl

@[simp] theorem addStroke_points (iv : Interval) (p : Stroke) :
    (iv.addStroke p).points = iv.points ++ [p] := rfl

@[simp] theorem addStroke_maxSpeed (iv : Interval) (p : Stroke) :
    (iv.addStroke p).maxSpeed = max iv.maxSpeed p.speed :=
  ite_gt_eq_max iv.maxSpeed p.speed

@[simp] theorem addStroke_maxHeart (iv : Interval) (p : Stroke) :
    (iv.addStroke p).maxHeart = max iv.maxHeart p.heart :=
  ite_gt_eq_max iv.maxHeart p.heart

@[simp] theorem addStroke_maxCadence (iv : Interval) (p : Stroke) :
    (iv.addStroke p).maxCadence = max iv.maxCadence p.cadence :=
  ite_gt_eq_max iv.maxCadence p.cadence

@[simp] theorem addStroke_maxWatts (iv : Interval) (p : Stroke) :
    (iv.addStroke p).maxWatts = max iv.maxWatts p.power :=
  ite_gt_eq_max iv.maxWatts p.power

@[simp] theorem init_startsec (ID : ℤ) (s : ℚ) :
    (Interval.init ID s).startsec = s := rfl

@[simp] theorem init_endsec (ID : ℤ) (s : ℚ) :
    (Interval.init ID s).endsec = s := rfl

@[simp] theorem init_interval_id (ID : ℤ) (s : ℚ) :
    (Interval.init ID s).interval_id = ID := rfl

@[simp] theorem init_points (ID : ℤ) (s : ℚ) :
    (Interval.init ID s).points = [] := rfl

@[simp] theorem init_maxSpeed (ID : ℤ) (s : ℚ) :
    (Interval.init ID s).maxSpeed = 0 := rfl

@[simp] theorem init_maxHeart (ID : ℤ) (s : ℚ) :
    (Interval.init ID s).maxHeart = 0 := rfl

@[simp] theorem init_maxCadence (ID : ℤ) (s : ℚ) :
    (Interval.init ID s).maxCadence = 0 := rfl

@[simp] theorem init_maxWatts (ID : ℤ) (s : ℚ) :
    (Interval.init ID s).maxWatts = 0 := rfl

@[simp] theorem lastId_concat (done : List Interval) (cur : Interval) :
    lastId (done ++ [cur]) = cur.interval_id := by
  simp [lastId]

@[simp] theorem lastEnd_concat (s : ℚ) (done : List Interval) (cur : Interval) :
    lastEnd s (done ++ [cur]) = cur.endsec := by
  simp [lastEnd]

@[simp] theorem lastId_nil : lastId [] = 0 := rfl

@[simp] theorem lastEnd_nil (s : ℚ) : lastEnd s [] = s := rfl

/-! ### A structured view of the segmentation loop

`Workout.readCSV` keeps a nonempty interval list whose last element is the
one being filled; `seg done cur rows` is the same loop with the finished
prefix `done` and the interval under construction `cur` made explicit. -/

/-- The segmentation loop, with the interval list split as finished
intervals `done` plus the current interval `cur`. -/
def seg (done : List Interval) (cur : Interval) : List Stroke → List Interval
  | [] => done ++ [cur]
  | p :: rest =>
      if p.interval_id > cur.interval_id then
        seg (done ++ [cur]) ((Interval.init p.interval_id cur.endsec).addStroke p) rest
      else
        seg done (cur.addStroke p) rest

theorem foldlM_processStroke_eq_seg (s : ℚ) :
    ∀ (rows : List Stroke) (done : List Interval) (cur : Interval),
      List.foldlM (processStroke s) (done ++ [cur]) rows = some (seg done cur rows) := by
  intro rows
  induction rows with
  | nil => intro done cur; simp [seg]
  | cons p rest ih =>
      intro done cur
      rw [List.foldlM_cons, seg]
      by_cases h : p.interval_id > cur.interval_id
      · rw [processStroke, if_pos (by simpa using h), if_pos h]
        simpa [List.append_assoc] using ih (done ++ [cur]) _
      · rw [processStroke, if_neg (by simpa using h), if_neg h,
          List.getLast?_concat, List.dropLast_concat]
        exact ih done _

theorem readCSV_nil (s : ℚ) : readCSV s [] = some [] := rfl

theorem readCSV_cons_pos (s : ℚ) (p : Stroke) (rest : List Stroke)
    (h : 0 < p.interval_id) :
    readCSV s (p :: rest) = some (seg [] ((Interval.init p.interval_id s).addStroke p) rest) := by
  rw [readCSV, List.foldlM_cons, processStroke, if_pos (by simpa using h)]
  simpa using foldlM_processStroke_eq_seg s rest [] _

theorem readCSV_cons_nonpos (s : ℚ) (p : Stroke) (rest : List Stroke)
    (h : p.interval_id ≤ 0) :
    readCSV s (p :: rest) = none := by
  rw [readCSV, List.foldlM_cons, processStroke, if_neg (by simpa using not_lt.mpr h)]
  rfl

/-- The identifiers of the intervals the loop creates while scanning the
identifier stream, starting from the most recent identifier `c`: one new
interval exactly at each value strictly above the last created one. -/
def newIds (c : ℤ) : List ℤ → List ℤ
  | [] => []
  | a :: l => if a > c then a :: newIds a l else newIds c l

/-- Chaining relation between consecutive intervals: each interval starts
where the previous one ends. -/
def chained (a b : Interval) : Prop := b.startsec = a.endsec

theorem seg_map_id :
    ∀ (rows : List Stroke) (done : List Interval) (cur : Interval),
      (seg done cur rows).map (fun iv => iv.interval_id) =
        done.map (fun iv => iv.interval_id) ++
          cur.interval_id :: newIds cur.interval_id (rows.map (fun p => p.interval_id)) := by
  intro rows
  induction rows with
  | nil => intro done cur; simp [seg, newIds]
  | cons p rest ih =>
      intro done cur
      rw [seg, List.map_cons, newIds]
      by_cases h : p.interval_id > cur.interval_id
      · rw [if_pos h, if_pos h, ih]
        simp [List.append_assoc]
      · rw [if_neg h, if_neg h, ih]
        simp

theorem seg_join :
    ∀ (rows : List Stroke) (done : List Interval) (cur : Interval),
      ((seg done cur rows).map (fun iv => iv.points)).flatten =
        ((done.map (fun iv => iv.points)).flatten ++ cur.points) ++ rows := by
  intro rows
  induction rows with
  | nil => intro done cur; simp [seg]
  | cons p rest ih =>
      intro done cur
      rw [seg]
      by_cases h : p.interval_id > cur.interval_id
      · rw [if_pos h, ih]
        simp
      · rw [if_neg h, ih]
        simp

theorem seg_head_startsec :
    ∀ (rows : List Stroke) (done : List Interval) (cur : Interval),
      (seg done cur rows).head?.map (fun iv => iv.startsec) =
        ((done ++ [cur]).head?).map (fun iv => iv.startsec) := by
  intro rows
  induction rows with
  | nil => intro done cur; rfl
  | cons p rest ih =>
      intro done cur
      rw [seg]
      by_cases h : p.interval_id > cur.interval_id
      · rw [if_pos h, ih]
        cases done <;> simp
      · rw [if_neg h, ih]
        cases done <;> simp

theorem seg_chained :
    ∀ (rows : List Stroke) (done : List Interval) (cur : Interval),
      List.Chain' chained (done ++ [cur]) →
        List.Chain' chained (seg done cur rows) := by
  intro rows
  induction rows with
  | nil => intro done cur h; rw [seg]; exact h
  | cons p rest ih =>
      intro done cur h
      rw [seg]
      by_cases hgt : p.interval_id > cur.interval_id
      · rw [if_pos hgt]
        refine ih _ _ ?_
        rw [List.chain'_append]
        refine ⟨h, List.chain'_singleton _, ?_⟩
        intro x hx y hy
        rw [List.getLast?_concat, Option.mem_some_iff] at hx
        rw [List.head?_cons, Option.mem_some_iff] at hy
        subst hx; subst hy
        rfl
      · rw [if_neg hgt]
        refine ih _ _ ?_
        rw [List.chain'_append] at h ⊢
        refine ⟨h.1, List.chain'_singleton _, ?_⟩
        intro x hx y hy
        rw [List.head?_cons, Option.mem_some_iff] at hy
        subst hy
        exact h.2.2 x hx cur (by rw [List.head?_cons]; rfl)

theorem convert_expectedHdr (s : ℚ) (rows : List Stroke) :
    convert s expectedHdr rows = (readCSV s rows).bind fun ivs =>
      Workout.trainingCenterDB { startsec := s, intervals := ivs } := rfl

/-! ### Concrete samples used by the witnesses -/

/-- A concrete sample with identifier 1. -/
def wStroke1 : Stroke := ⟨10, 2, 50, 100, 150, 30, 12, 1⟩

/-- A concrete sample with identifier 2. -/
def wStroke2 : Stroke := ⟨12, 3, 62, 110, 155, 32, 14, 2⟩

/-- A concrete sample with identifier 0. -/
def wStroke0 : Stroke := ⟨5, 1, 10, 50, 120, 20, 3, 0⟩

/-- The interval the loop builds from `wStroke1` at workout start 0. -/
def wIv1 : Interval := (Interval.init 1 0).addStroke wStroke1

/-- The interval the loop builds from `wStroke2` after `wIv1`. -/
def wIv2 : Interval := (Interval.init 2 wIv1.endsec).addStroke wStroke2

/-! ### The claims -/

/-- Claim C1: on every successful run of the row loop, a new interval is
created exactly when the sample's identifier strictly exceeds the most
recent interval's (0 when none), carrying the sample's identifier
(`newIds`); every sample is appended to the most recent interval, in order
(the interval point lists concatenate back to the row list); each interval
starts at the previous interval's end offset, the first at the workout
start. -/
theorem explicit_id_segmentation (s : ℚ) (rows : List Stroke)
    (ivs : List Interval) (h : readCSV s rows = some ivs) :
    ivs.map (fun iv => iv.interval_id) =
        newIds 0 (rows.map (fun p => p.interval_id)) ∧
    (ivs.map (fun iv => iv.points)).flatten = rows ∧
    List.Chain' chained ivs ∧
    ivs.head?.map (fun iv => iv.startsec) = rows.head?.map (fun _ => s) := by
  cases rows with
  | nil =>
      rw [readCSV_nil] at h
      injection h with h
      subst h
      simp [newIds]
  | cons p rest =>
      by_cases hp : 0 < p.interval_id
      · rw [readCSV_cons_pos s p rest hp] at h
        injection h with h
        subst h
        refine ⟨?_, ?_, ?_, ?_⟩
        · rw [seg_map_id, List.map_cons, newIds]
          simp [hp]
        · rw [seg_join]
          simp
        · exact seg_chained rest [] _ (List.chain'_singleton _)
        · rw [seg_head_startsec]
          simp
      · rw [readCSV_cons_nonpos s p rest (not_lt.mp hp)] at h
        exact absurd h (by simp)

/-- Witness for C1 at the two-sample run `[wStroke1, wStroke2]`. -/
theorem explicit_id_segmentation_witness :
    [wIv1, wIv2].map (fun iv => iv.interval_id) =
        newIds 0 ([wStroke1, wStroke2].map (fun p => p.interval_id)) ∧
    ([wIv1, wIv2].map (fun iv => iv.points)).flatten = [wStroke1, wStroke2] ∧
    List.Chain' chained [wIv1, wIv2] ∧
    [wIv1, wIv2].head?.map (fun iv => iv.startsec) =
        [wStroke1, wStroke2].head?.map (fun _ => (0 : ℚ)) :=
  explicit_id_segmentation 0 [wStroke1, wStroke2] [wIv1, wIv2] rfl

/-- Claim C9: when the first data row's identifier is not positive, no
interval is created for it and appending to the nonexistent current
interval aborts the conversion; with a positive first identifier the loop
always succeeds. -/
theorem first_row_nonpositive_id_aborts :
    (∀ (s : ℚ) (p : Stroke) (rest : List Stroke), p.interval_id ≤ 0 →
        readCSV s (p :: rest) = none ∧
        convert s expectedHdr (p :: rest) = none) ∧
    (∀ (s : ℚ) (p : Stroke) (rest : List Stroke), 0 < p.interval_id →
        ∃ ivs, readCSV s (p :: rest) = some ivs) := by
  constructor
  · intro s p rest h
    have hr := readCSV_cons_nonpos s p rest h
    refine ⟨hr, ?_⟩
    rw [convert_expectedHdr, hr]
    rfl
  · intro s p rest h
    exact ⟨_, readCSV_cons_pos s p rest h⟩

/-- Witness for C9: the run starting with identifier 0 aborts, the run
starting with identifier 1 succeeds. -/
theorem first_row_nonpositive_id_aborts_witness :
    (readCSV 0 [wStroke0] = none ∧ convert 0 expectedHdr [wStroke0] = none) ∧
    ∃ ivs, readCSV 0 [wStroke1] = some ivs :=
  ⟨first_row_nonpositive_id_aborts.1 0 wStroke0 [] (by decide),
   first_row_nonpositive_id_aborts.2 0 wStroke1 [] (by decide)⟩

/-- Claim C2 (amended): the parser accepts a header if and only if it is
exactly the extended 25-column layout; on any other header — the legacy
8-column layout included — the conversion fails before any data row is
processed and produces no intervals and no document. -/
theorem header_validation :
    (∀ row, parseStrokeHdr row = Except.ok () ↔ row = expectedHdr) ∧
    (∀ (s : ℚ) (hdr : List String) (rows : List Stroke),
        parseStrokeHdr hdr ≠ Except.ok () → convert s hdr rows = none) := by
  constructor
  · intro row
    constructor
    · intro h
      rw [parseStrokeHdr] at h
      by_cases h1 : row.length ≠ 25
      · rw [if_pos h1] at h
        exact absurd h (by simp)
      · rw [if_neg h1] at h
        by_cases h2 : expectedHdr ≠ row
        · rw [if_pos h2] at h
          exact absurd h (by simp)
        · exact (not_ne_iff.mp h2).symm
    · intro h
      subst h
      rfl
  · intro s hdr rows h
    cases heq : parseStrokeHdr hdr with
    | error e => unfold convert; rw [heq]
    | ok u => cases u; exact absurd heq h

/-- Witness for C2: the legacy header is not the extended one, so the
whole conversion on it yields nothing. -/
theorem header_validation_witness : convert 0 legacyHdr [] = none :=
  header_validation.2 0 legacyHdr [] (fun h => by
    have h2 := (header_validation.1 legacyHdr).mp h
    exact absurd h2 (by decide))

/-- Counterexample for C2 as stated: the legacy 8-column header is one of
the two layouts the claim says are accepted, yet the parser rejects it
(only the 25-column layout is implemented). -/
theorem header_validation_cex :
    parseStrokeHdr legacyHdr = Except.error "Expected 25 cols" ∧
    legacyHdr.length = 8 :=
  ⟨rfl, rfl⟩

/-- Claim C3 (amended): legacy-layout inputs are rejected at header
validation, whatever their data rows; the converter implements no inferred
(distance-reset) segmentation. -/
theorem legacy_layout_rejected (s : ℚ) (rows : List Stroke) :
    convert s legacyHdr rows = none := rfl

/-- Counterexample for C3 as stated: a legacy input with a data row is
predicted by the claim to start interval 1 at the workout start, but the
conversion aborts at the header and produces nothing. -/
theorem legacy_layout_cex : convert 0 legacyHdr [wStroke1] = none := rfl

/-- Claim C7: pace-to-speed conversion is `500 / pace` for positive pace
and total, returning 0, on every non-positive pace. -/
theorem paceToSpeed_spec (pace : ℚ) :
    (0 < pace → paceToSpeed pace = 500 / pace) ∧
    (pace ≤ 0 → paceToSpeed pace = 0) := by
  constructor
  · intro h
    rw [paceToSpeed, if_pos h]
  · intro h
    rw [paceToSpeed, if_neg (not_lt.mpr h)]

/-- Witness for C7 at paces 250, 0 and -3. -/
theorem paceToSpeed_spec_witness :
    paceToSpeed 250 = 500 / 250 ∧ paceToSpeed 0 = 0 ∧ paceToSpeed (-3) = 0 :=
  ⟨(paceToSpeed_spec 250).1 (by norm_num),
   (paceToSpeed_spec 0).2 le_rfl,
   (paceToSpeed_spec (-3)).2 (by norm_num)⟩

/-- Claim C8: a valid header with no data rows converts without failure to
a workout with zero intervals and a document whose single Activity has no
laps, the creator and author blocks still present. -/
theorem empty_input_tolerated (s : ℚ) :
    readCSV s [] = some [] ∧
    convert s expectedHdr [] =
      some { activities := [{ sport := "Rowing", id := isoTimestamp s,
                              laps := [], creator := creatorElement }],
             author := authorElement } :=
  ⟨rfl, rfl⟩

/-- Claim C5: the lap built from an interval with at least one sample
carries the ISO start time, the last sample's elapsed seconds and
distance, the running maxima, the last sample's calories, the fixed
intensity and trigger method, and one trackpoint per sample in order. -/
theorem lap_rendering (iv : Interval) (p : Stroke)
    (h : iv.points.getLast? = some p) :
    iv.addLap = some
      { startTime := isoTimestamp iv.startsec
        totalTimeSeconds := p.secs
        distanceMeters := p.dist
        maximumSpeed := iv.maxSpeed
        calories := p.calories
        maximumHeartRate := iv.maxHeart
        intensity := "Active"
        triggerMethod := "Manual"
        track := iv.points.map (fun q => q.trackpointElement iv.startsec) } := by
  rw [Interval.addLap, h]
  rfl

/-- Witness for C5 at the one-sample interval `wIv1`. -/
theorem lap_rendering_witness :
    wIv1.addLap = some
      { startTime := isoTimestamp wIv1.startsec
        totalTimeSeconds := wStroke1.secs
        distanceMeters := wStroke1.dist
        maximumSpeed := wIv1.maxSpeed
        calories := wStroke1.calories
        maximumHeartRate := wIv1.maxHeart
        intensity := "Active"
        triggerMethod := "Manual"
        track := wIv1.points.map (fun q => q.trackpointElement wIv1.startsec) } :=
  lap_rendering wIv1 wStroke1 rfl

/-- Claim C10: the stored calorie value is the energy field divided by
4.184 and truncated toward zero at `Stroke` construction, and a Lap's
Calories is exactly the last sample's stored integer value. -/
theorem calorie_truncation :
    (∀ (wid : ℤ) (pw sr t d p500 e : ℚ) (pulse : ℤ),
        (Stroke.ofFields wid pw sr t d p500 e pulse).calories =
          truncRat (e / 4.184)) ∧
    (∀ (iv : Interval) (p : Stroke), iv.points.getLast? = some p →
        iv.addLap.map (fun lap => lap.calories) = some p.calories) := by
  constructor
  · intro _ _ _ _ _ _ _ _
    rfl
  · intro iv p h
    rw [Interval.addLap, h]
    rfl

/-- Witness for C10: a concrete construction and the lap of `wIv1`. -/
theorem calorie_truncation_witness :
    (Stroke.ofFields 1 100 30 10 50 250 10 150).calories =
      truncRat (10 / 4.184) ∧
    wIv1.addLap.map (fun lap => lap.calories) = some wStroke1.calories :=
  ⟨calorie_truncation.1 1 100 30 10 50 250 10 150,
   calorie_truncation.2 wIv1 wStroke1 rfl⟩

/-! ### Folding `addStroke` over a sample list -/

theorem foldl_addStroke_fields :
    ∀ (ps : List Stroke) (iv : Interval),
      (ps.foldl Interval.addStroke iv).startsec = iv.startsec ∧
      (ps.foldl Interval.addStroke iv).maxSpeed =
        (ps.map (fun p => p.speed)).foldl max iv.maxSpeed ∧
      (ps.foldl Interval.addStroke iv).maxHeart =
        (ps.map (fun p => p.heart)).foldl max iv.maxHeart ∧
      (ps.foldl Interval.addStroke iv).maxCadence =
        (ps.map (fun p => p.cadence)).foldl max iv.maxCadence ∧
      (ps.foldl Interval.addStroke iv).maxWatts =
        (ps.map (fun p => p.power)).foldl max iv.maxWatts := by
  intro ps
  induction ps with
  | nil => intro iv; exact ⟨rfl, rfl, rfl, rfl, rfl⟩
  | cons p rest ih =>
      intro iv
      simpa using ih (iv.addStroke p)

theorem foldl_addStroke_endsec :
    ∀ (ps : List Stroke) (iv : Interval) (p : Stroke), ps.getLast? = some p →
      (ps.foldl Interval.addStroke iv).endsec = iv.startsec + p.secs := by
  intro ps
  induction ps with
  | nil => intro iv p h; exact absurd h (by simp)
  | cons q rest ih =>
      intro iv p h
      cases rest with
      | nil =>
          rw [List.getLast?_singleton] at h
          injection h with h
          subst h
          simp
      | cons r rest2 =>
          have h2 : (r :: rest2).getLast? = some p := by
            rw [← h, List.getLast?_cons_cons]
          rw [List.foldl_cons, ih (iv.addStroke q) p h2]
          simp

/-- Claim C6: for an interval built by appending samples, the end offset
is the start offset plus the most recently appended sample's elapsed time,
and each running maximum is the maximum of its initial value 0 and the
corresponding field over all appended samples (the code updates a maximum
only on a strictly greater value, which produces exactly these maxima). -/
theorem interval_aggregates (ID : ℤ) (st : ℚ) (ps : List Stroke) (p : Stroke)
    (h : ps.getLast? = some p) :
    (ps.foldl Interval.addStroke (Interval.init ID st)).endsec = st + p.secs ∧
    (ps.foldl Interval.addStroke (Interval.init ID st)).maxSpeed =
      (ps.map (fun q => q.speed)).foldl max 0 ∧
    (ps.foldl Interval.addStroke (Interval.init ID st)).maxHeart =
      (ps.map (fun q => q.heart)).foldl max 0 ∧
    (ps.foldl Interval.addStroke (Interval.init ID st)).maxCadence =
      (ps.map (fun q => q.cadence)).foldl max 0 ∧
    (ps.foldl Interval.addStroke (Interval.init ID st)).maxWatts =
      (ps.map (fun q => q.power)).foldl max 0 := by
  have h1 := foldl_addStroke_fields ps (Interval.init ID st)
  have h2 := foldl_addStroke_endsec ps (Interval.init ID st) p h
  exact ⟨by simpa using h2, by simpa using h1.2.1, by simpa using h1.2.2.1,
    by simpa using h1.2.2.2.1, by simpa using h1.2.2.2.2⟩

/-- Witness for C6 at the two-sample interval. -/
theorem interval_aggregates_witness :
    ([wStroke1, wStroke2].foldl Interval.addStroke (Interval.init 1 0)).endsec =
      0 + wStroke2.secs ∧
    ([wStroke1, wStroke2].foldl Interval.addStroke (Interval.init 1 0)).maxSpeed =
      ([wStroke1, wStroke2].map (fun q => q.speed)).foldl max 0 ∧
    ([wStroke1, wStroke2].foldl Interval.addStroke (Interval.init 1 0)).maxHeart =
      ([wStroke1, wStroke2].map (fun q => q.heart)).foldl max 0 ∧
    ([wStroke1, wStroke2].foldl Interval.addStroke (Interval.init 1 0)).maxCadence =
      ([wStroke1, wStroke2].map (fun q => q.cadence)).foldl max 0 ∧
    ([wStroke1, wStroke2].foldl Interval.addStroke (Interval.init 1 0)).maxWatts =
      ([wStroke1, wStroke2].map (fun q => q.power)).foldl max 0 :=
  interval_aggregates 1 0 [wStroke1, wStroke2] wStroke2 rfl

/-! ### Distinct identifiers in first-seen order -/

/-- The distinct values of a list, in the order of their first
occurrence. -/
def firstSeen : List ℤ → List ℤ
  | [] => []
  | a :: l => a :: firstSeen (l.filter (fun x => x ≠ a))
  termination_by l => l.length
  decreasing_by
    simp only [List.length_cons]
    exact Nat.lt_succ_of_le (List.length_filter_le _ _)

theorem firstSeen_nil : firstSeen [] = [] := by
  rw [firstSeen]

theorem firstSeen_cons (a : ℤ) (l : List ℤ) :
    firstSeen (a :: l) = a :: firstSeen (l.filter (fun x => x ≠ a)) := by
  rw [firstSeen]

theorem toFinset_filter_ne (t : List ℤ) (a : ℤ) :
    (t.filter (fun x => x ≠ a)).toFinset = t.toFinset.erase a := by
  ext x
  simp only [List.mem_toFinset, List.mem_filter, Finset.mem_erase,
    decide_eq_true_eq]
  exact and_comm

theorem firstSeen_length_aux :
    ∀ (n : ℕ) (l : List ℤ), l.length ≤ n →
      (firstSeen l).length = l.toFinset.card := by
  intro n
  induction n with
  | zero =>
      intro l hl
      have h : l = [] := List.eq_nil_of_length_eq_zero (Nat.le_zero.mp hl)
      subst h
      rw [firstSeen_nil]
      rfl
  | succ n ih =>
      intro l hl
      cases l with
      | nil =>
          rw [firstSeen_nil]
          rfl
      | cons a t =>
          rw [List.length_cons, Nat.succ_le_succ_iff] at hl
          rw [firstSeen_cons, List.length_cons,
            ih _ (le_trans (List.length_filter_le _ _) hl),
            toFinset_filter_ne, List.toFinset_cons]
          have hins : insert a t.toFinset = insert a (t.toFinset.erase a) := by
            ext x
            by_cases hx : x = a <;> simp [hx]
          rw [hins, Finset.card_insert_of_not_mem (Finset.not_mem_erase a _)]

theorem firstSeen_length (l : List ℤ) :
    (firstSeen l).length = l.toFinset.card :=
  firstSeen_length_aux l.length l le_rfl

/-- On a non-decreasing identifier stream bounded below by the current
identifier, the identifiers of the newly created intervals are exactly the
distinct values above the current one, in first-seen order. -/
theorem newIds_eq_firstSeen_aux :
    ∀ (n : ℕ) (t : List ℤ) (c : ℤ), t.length ≤ n →
      t.Sorted (· ≤ ·) → (∀ x ∈ t, c ≤ x) →
      newIds c t = firstSeen (t.filter (fun x => c < x)) := by
  intro n
  induction n with
  | zero =>
      intro t c ht _ _
      have h : t = [] := List.eq_nil_of_length_eq_zero (Nat.le_zero.mp ht)
      subst h
      simp [newIds, firstSeen_nil]
  | succ n ih =>
      intro t c ht hs hb
      cases t with
      | nil => simp [newIds, firstSeen_nil]
      | cons b t2 =>
          rw [List.length_cons, Nat.succ_le_succ_iff] at ht
          rw [List.sorted_cons] at hs
          have hcb : c ≤ b := hb b (List.mem_cons_self b t2)
          rw [newIds]
          by_cases h : b > c
          · have hfb : (b :: t2).filter (fun x => decide (c < x)) =
                b :: t2.filter (fun x => decide (c < x)) := by
              simp [List.filter_cons, h]
            have ht2 : t2.filter (fun x => decide (b < x)) =
                (t2.filter (fun x => decide (c < x))).filter
                  (fun x => decide (x ≠ b)) := by
              rw [List.filter_filter]
              apply List.filter_congr
              intro x hx
              have hbx : b ≤ x := hs.1 x hx
              by_cases hxb : x = b
              · subst hxb
                simp
              · have hlt : b < x := lt_of_le_of_ne hbx (Ne.symm hxb)
                simp [hxb, hlt, lt_of_lt_of_le h hbx]
            rw [if_pos h, hfb, firstSeen_cons,
              ih t2 b ht hs.2 (fun x hx => hs.1 x hx), ht2]
          · have hbc : b = c := le_antisymm (not_lt.mp h) hcb
            have hfb : (b :: t2).filter (fun x => decide (c < x)) =
                t2.filter (fun x => decide (c < x)) := by
              simp [List.filter_cons, hbc]
            rw [if_neg h, hfb]
            exact ih t2 c ht hs.2 (fun x hx => hbc ▸ hs.1 x hx)

theorem newIds_eq_firstSeen (t : List ℤ) (c : ℤ)
    (hs : t.Sorted (· ≤ ·)) (hb : ∀ x ∈ t, c ≤ x) :
    newIds c t = firstSeen (t.filter (fun x => c < x)) :=
  newIds_eq_firstSeen_aux t.length t c le_rfl hs hb

/-- Claim C4 (amended): on extended-layout inputs whose interval
identifiers are non-decreasing and at least 1, the number of intervals
produced equals the number of distinct identifier values among the rows,
and the interval identifiers appear in first-seen order. -/
theorem distinct_id_count (s : ℚ) (rows : List Stroke)
    (h1 : (rows.map (fun p => p.interval_id)).Sorted (· ≤ ·))
    (h2 : ∀ p ∈ rows, 1 ≤ p.interval_id) :
    ∃ ivs, readCSV s rows = some ivs ∧
      ivs.map (fun iv => iv.interval_id) =
        firstSeen (rows.map (fun p => p.interval_id)) ∧
      ivs.length = (rows.map (fun p => p.interval_id)).toFinset.card := by
  cases rows with
  | nil => exact ⟨[], rfl, by simp [firstSeen_nil], rfl⟩
  | cons p rest =>
      have hp : 0 < p.interval_id :=
        lt_of_lt_of_le zero_lt_one (h2 p (List.mem_cons_self p rest))
      rw [List.map_cons, List.sorted_cons] at h1
      refine ⟨_, readCSV_cons_pos s p rest hp, ?_⟩
      have hmap : (seg [] ((Interval.init p.interval_id s).addStroke p) rest).map
          (fun iv => iv.interval_id) =
          firstSeen ((p :: rest).map (fun q => q.interval_id)) := by
        rw [seg_map_id, List.map_cons, firstSeen_cons]
        simp only [List.map_nil, List.nil_append, addStroke_interval_id,
          init_interval_id]
        congr 1
        rw [newIds_eq_firstSeen _ p.interval_id h1.2 h1.1]
        congr 1
        apply List.filter_congr
        intro x hx
        have hle := h1.1 x hx
        by_cases hxe : x = p.interval_id
        · subst hxe
          simp
        · simp [hxe, lt_of_le_of_ne hle (Ne.symm hxe)]
      refine ⟨hmap, ?_⟩
      have hlen := congrArg List.length hmap
      rwa [List.length_map, firstSeen_length] at hlen

/-- Witness for C4 at the run with identifiers `[1, 2]`. -/
theorem distinct_id_count_witness :
    ∃ ivs, readCSV 0 [wStroke1, wStroke2] = some ivs ∧
      ivs.map (fun iv => iv.interval_id) =
        firstSeen ([wStroke1, wStroke2].map (fun p => p.interval_id)) ∧
      ivs.length =
        ([wStroke1, wStroke2].map (fun p => p.interval_id)).toFinset.card :=
  distinct_id_count 0 [wStroke1, wStroke2] (by decide) (by decide)

/-- The sample with identifier 2 used by the C4 counterexample. -/
def wStrokeA : Stroke := ⟨10, 2, 50, 100, 150, 30, 12, 2⟩

/-- The sample with identifier 1 used by the C4 counterexample. -/
def wStrokeB : Stroke := ⟨12, 3, 62, 110, 155, 32, 14, 1⟩

/-- Counterexample for C4 as stated: the valid two-row input with
identifiers `[2, 1]` has two distinct identifier values but produces a
single interval (the second row's identifier is not greater than the
current one, so the row is merged into the first interval). -/
theorem distinct_id_count_cex :
    (readCSV 0 [wStrokeA, wStrokeB]).map List.length = some 1 ∧
    ([wStrokeA, wStrokeB].map (fun p => p.interval_id)).toFinset.card = 2 :=
  ⟨rfl, rfl⟩

end RP3
